import Mathlib

/-!
Verification of the helpdesk-analytics data pipeline (`utils.ts`,
`DataUpload.tsx`, `Skeletons.tsx`) against its specification.

The TypeScript source is shallowly embedded:
* a JavaScript `Date`'s time value is `Option Int` (milliseconds since the
  epoch; `none` is an Invalid Date, i.e. a NaN time value);
* raw spreadsheet cell values are the inductive `JSValue`, with JavaScript
  truthiness and `String(...)` conversion modelled explicitly;
* JavaScript numbers are modelled as exact rationals (the quantities involved
  are small decimal values far from the range where binary floating point
  diverges from exact arithmetic on them);
* the host's local time zone is an explicit parameter `tz` (minutes east of
  UTC, as a fixed offset);
* `Math.random()`-based synthetic ids are modelled by an explicit supply of
  fresh id strings, one per row index.
-/

/-- A JavaScript `Date`'s time value: milliseconds since the Unix epoch, with
`none` standing for an Invalid Date (NaN time value). -/
abbrev JSDate := Option Int

/-- `new Date(0)`, the "unknown/invalid" fallback used throughout the parser
(`utils.ts` line 62: "Fallback to 1970"). -/
def epochSentinel : JSDate := some 0

/-- A raw spreadsheet cell value as delivered by `XLSX.utils.sheet_to_json`:
a string, number, boolean, `null`, `undefined` (absent field), an array of
cell values, or an already-parsed `Date` object (`cellDates: true`). -/
inductive JSValue where
  | str (s : String)
  | num (q : ℚ)
  | jsBool (b : Bool)
  | null
  | undefined
  | arr (elems : List JSValue)
  | date (d : JSDate)

/-- JavaScript truthiness of a cell value. Objects (arrays, `Date`s) are
always truthy, even an Invalid Date. -/
def JSValue.truthy : JSValue → Bool
  | .str s => s ≠ ""
  | .num q => q ≠ 0
  | .jsBool b => b
  | .null => false
  | .undefined => false
  | .arr _ => true
  | .date _ => true

/-!
JavaScript string primitives. They are implemented by structural recursion
over the character list of the string (so that a closed computation reduces
inside the kernel). The inputs here are ASCII: the `trim` whitespace set and
the `toLowerCase` case table are modelled for that range.
-/

/-- `String.prototype.trim`. -/
def jsTrim (s : String) : String :=
  String.mk (((s.data.dropWhile Char.isWhitespace).reverse.dropWhile Char.isWhitespace).reverse)

/-- Lower-casing of one character. -/
def jsLowerChar (c : Char) : Char :=
  if 'A' ≤ c ∧ c ≤ 'Z' then Char.ofNat (c.toNat + 32) else c

/-- `String.prototype.toLowerCase`. -/
def jsToLower (s : String) : String :=
  String.mk (s.data.map jsLowerChar)

/-- `String.prototype.split` with a one-character separator (the only kind
the source uses: `' '`, `'-'`, `':'`, `','`). -/
def splitCharList (sep : Char) : List Char → List (List Char)
  | [] => [[]]
  | c :: rest =>
    match splitCharList sep rest with
    | [] => [[c]]
    | g :: gs => if c = sep then [] :: g :: gs else (c :: g) :: gs

/-- `s.split(sep)` for a one-character separator. -/
def jsSplitChar (sep : Char) (s : String) : List String :=
  (splitCharList sep s.data).map String.mk

/-- `s.replace(/a/g, b)` for one-character pattern and replacement. -/
def jsReplaceChar (a b : Char) (s : String) : String :=
  String.mk (s.data.map (fun c => if c = a then b else c))

/-- `s.startsWith(a)` for a one-character argument. -/
def jsStartsWithChar (a : Char) (s : String) : Bool :=
  s.data.head? = some a

/-- `s.endsWith(a)` for a one-character argument. -/
def jsEndsWithChar (a : Char) (s : String) : Bool :=
  s.data.getLast? = some a

/-- `s.includes(a)` for a one-character argument. -/
def jsContainsChar (a : Char) (s : String) : Bool :=
  s.data.any (fun c => c = a)

/-- Render a rational with a finite decimal expansion the way JavaScript
prints such a number (`String(1.5) = "1.5"`, `String(3) = "3"`). Rationals
without a terminating decimal expansion cannot arise from a binary float; they
get a fraction rendering as a defined fallback. -/
def qToString (q : ℚ) : String :=
  match (List.range 41).find? (fun k => 10 ^ k % q.den = 0) with
  | some k =>
    let a := (q.num * (10 ^ k : Nat)).natAbs / q.den
    let ip := a / 10 ^ k
    let fp := a % 10 ^ k
    let fpStr := toString fp
    (if q.num < 0 then "-" else "") ++ toString ip ++
      (if k = 0 then "" else "." ++ (String.mk (List.replicate (k - fpStr.length) '0') ++ fpStr))
  | none => toString q.num ++ "/" ++ toString q.den

mutual

/-- JavaScript `String(v)`. `String` of a valid `Date` is an
environment-dependent locale string; it is modelled by a defined rendering of
the time value (no claim exercises it). `String` of an Invalid Date is the
actual JavaScript result `"Invalid Date"`. -/
def jsToString : JSValue → String
  | .str s => s
  | .num q => qToString q
  | .jsBool b => if b then "true" else "false"
  | .null => "null"
  | .undefined => "undefined"
  | .arr es => jsJoin es
  | .date none => "Invalid Date"
  | .date (some t) => "Date(" ++ toString t ++ ")"

/-- `Array.prototype.toString`, i.e. `join(',')`. -/
def jsJoin : List JSValue → String
  | [] => ""
  | [v] => jsJoinElem v
  | v :: rest => jsJoinElem v ++ "," ++ jsJoin rest

/-- Element conversion inside `Array.prototype.join`: `null` and `undefined`
become the empty string, everything else converts as `String(v)` does. -/
def jsJoinElem : JSValue → String
  | .null => ""
  | .undefined => ""
  | .str s => s
  | .num q => qToString q
  | .jsBool b => if b then "true" else "false"
  | .arr es => jsJoin es
  | .date none => "Invalid Date"
  | .date (some t) => "Date(" ++ toString t ++ ")"

end

/-- Numeric value of a list of decimal digit characters. -/
def digitsToNat (cs : List Char) : Nat :=
  cs.foldl (fun a c => a * 10 + (c.toNat - 48)) 0

/-- JavaScript `parseInt(s)` (radix 10): skip whitespace, optional sign, then
the maximal run of decimal digits; `none` is NaN (no digits). The legacy
`0x`-prefix hexadecimal form is not modelled (no input here exercises it). -/
def parseIntJS (s : String) : Option Int :=
  let cs := s.data.dropWhile Char.isWhitespace
  let core : List Char → Option Nat := fun l =>
    let ds := l.takeWhile Char.isDigit
    if ds.isEmpty then none else some (digitsToNat ds)
  match cs with
  | '-' :: rest => (core rest).map (fun n => -(n : Int))
  | '+' :: rest => (core rest).map (fun n => (n : Int))
  | _ => (core cs).map (fun n => (n : Int))

/-- JavaScript `parseFloat(s)`: skip whitespace, optional sign, decimal
digits with an optional fraction and exponent, read as the longest valid
prefix; `none` is NaN. -/
def parseFloatJS (s : String) : Option ℚ :=
  let cs := s.data.dropWhile Char.isWhitespace
  let sgn : ℚ := if cs.head? = some '-' then -1 else 1
  let cs := if cs.head? = some '-' ∨ cs.head? = some '+' then cs.tail else cs
  let ip := cs.takeWhile Char.isDigit
  let cs1 := cs.dropWhile Char.isDigit
  let fp := if cs1.head? = some '.' then cs1.tail.takeWhile Char.isDigit else []
  let cs2 := if cs1.head? = some '.' then cs1.tail.dropWhile Char.isDigit else cs1
  if ip.isEmpty ∧ fp.isEmpty then none
  else
    let mant : ℚ := (digitsToNat ip : ℚ) + (digitsToNat fp : ℚ) / ((10 : ℚ) ^ fp.length)
    let expo : Int :=
      if cs2.head? = some 'e' ∨ cs2.head? = some 'E' then
        let r := cs2.tail
        let esgn : Int := if r.head? = some '-' then -1 else 1
        let r := if r.head? = some '-' ∨ r.head? = some '+' then r.tail else r
        let ds := r.takeWhile Char.isDigit
        if ds.isEmpty then 0 else esgn * (digitsToNat ds : Int)
      else 0
    some (sgn * mant * (10 : ℚ) ^ expo)

/-- Days from the epoch to the civil date `y-m-d` (proleptic Gregorian,
`1 ≤ m ≤ 12`); the standard days-from-civil computation used by ECMAScript's
`MakeDay`. -/
def daysFromCivil (y m d : Int) : Int :=
  let y := y - (if m ≤ 2 then 1 else 0)
  let era : Int := (if 0 ≤ y then y else y - 399) / 400
  let yoe := y - era * 400
  let doy := (153 * (m + (if 2 < m then -3 else 9)) + 2) / 5 + d - 1
  let doe := yoe * 365 + yoe / 4 - yoe / 100 + doy
  era * 146097 + doe - 719468

/-- ECMAScript `MakeDay`: `month` is 0-based and may lie outside `0..11`
(overflow rolls the year). -/
def makeDay (year month date : Int) : Int :=
  daysFromCivil (year + Int.fdiv month 12) (Int.emod month 12 + 1) 1 + (date - 1)

/-- ECMAScript `TimeClip`: a time value farther than 8.64e15 ms from the
epoch is NaN. -/
def timeClip (t : Int) : JSDate :=
  if -8640000000000000 ≤ t ∧ t ≤ 8640000000000000 then some t else none

/-- The two-digit-year rule of the `Date` constructor: an integer year in
`0..99` means `1900 + year`. -/
def yearAdjust (y : Int) : Int :=
  if 0 ≤ y ∧ y ≤ 99 then 1900 + y else y

/-- `new Date(year, month, date, hours, minutes, seconds)` under a fixed
local offset of `tz` minutes east of UTC. `none` arguments are NaN (a failed
`parseInt`) and yield an Invalid Date, as in JavaScript. -/
def mkDateLocal (tz : Int) (y mo d h mi s : Option Int) : JSDate :=
  match y, mo, d, h, mi, s with
  | some y, some mo, some d, some h, some mi, some s =>
    let day := makeDay (yearAdjust y) mo d
    let localT := day * 86400000 + (h * 3600000 + mi * 60000 + s * 1000)
    timeClip (localT - tz * 60000)
  | _, _, _, _, _, _ => none

/-- Days in a month of the proleptic Gregorian calendar. -/
def daysInMonth (y m : Nat) : Nat :=
  if m = 2 then (if y % 4 = 0 ∧ (y % 100 ≠ 0 ∨ y % 400 = 0) then 29 else 28)
  else if m = 4 ∨ m = 6 ∨ m = 9 ∨ m = 11 then 30 else 31

/-- The engine's `new Date(string)` parse, modelled for the ECMAScript
date-only ISO form `YYYY-MM-DD` (interpreted at UTC midnight, with the day
validated against the month as V8 does); every other string is modelled as
unparseable (`none` = Invalid Date). The engine-specific legacy formats it
would additionally accept (e.g. `MM/DD/YYYY`, month names) are exercised by
none of the claims. -/
def jsDateParse (s : String) : Option Int :=
  match jsSplitChar '-' s with
  | [ys, ms, ds] =>
    if ys.length = 4 ∧ ms.length = 2 ∧ ds.length = 2 ∧
        (ys.data ++ ms.data ++ ds.data).all Char.isDigit then
      let y := digitsToNat ys.data
      let m := digitsToNat ms.data
      let d := digitsToNat ds.data
      if 1 ≤ m ∧ m ≤ 12 ∧ 1 ≤ d ∧ d ≤ daysInMonth y m then
        some (daysFromCivil y m d * 86400000)
      else none
    else none
  | _ => none

/-- Models `input === '-'` (strict equality against the literal `'-'`). -/
def isDashValue : JSValue → Bool
  | .str s => s = "-"
  | _ => false

/-- Models `s || '0'` on the components of a split time string (an absent or
empty component becomes `"0"`). -/
def orZeroStr (s : String) : String :=
  if s = "" then "0" else s

/-- `parseCustomDate` (`utils.ts` lines 61-114): best-effort conversion of a
raw cell into a `Date`, falling back to `new Date(0)`. -/
def parseCustomDate (tz : Int) (input : JSValue) : JSDate :=
  if ¬ input.truthy ∨ isDashValue input then epochSentinel
  else
    match input with
    | .date d => match d with | none => epochSentinel | some t => some t
    | _ =>
      let dateStr := jsToString input
      if jsTrim dateStr = "" ∨ jsToLower dateStr = "null" then epochSentinel
      else
        match jsDateParse dateStr with
        | some t => some t
        | none =>
          let cleanDateStr := jsReplaceChar '/' '-' (jsReplaceChar '.' '-' dateStr)
          let pieces := jsSplitChar ' ' cleanDateStr
          let d := pieces.headD ""
          let parts := jsSplitChar '-' d
          if parts.length = 3 then
            let (day, month, year) :=
              if (parts.headD "").length = 4 then
                (parseIntJS (parts.getD 2 ""), parseIntJS (parts.getD 1 ""),
                 parseIntJS (parts.getD 0 ""))
              else
                (parseIntJS (parts.getD 0 ""), parseIntJS (parts.getD 1 ""),
                 parseIntJS (parts.getD 2 ""))
            match pieces[1]? with
            | some t =>
              let tp := jsSplitChar ':' t
              mkDateLocal tz year (month.map (· - 1)) day
                (parseIntJS (orZeroStr (tp.getD 0 "")))
                (parseIntJS (orZeroStr (tp.getD 1 "")))
                (parseIntJS (orZeroStr (tp.getD 2 "")))
            | none => mkDateLocal tz year (month.map (· - 1)) day (some 0) (some 0) (some 0)
          else epochSentinel

/-- A JSON value, for modelling `JSON.parse` on the pseudo-JSON assignee
strings. -/
inductive JVal where
  | jstr (s : String)
  | jnum (q : ℚ)
  | jbool (b : Bool)
  | jnull
  | jarr (es : List JVal)

/-- JSON whitespace skip. -/
def skipWs (cs : List Char) : List Char :=
  cs.dropWhile (fun c => c = ' ' ∨ c = '\t' ∨ c = '\n' ∨ c = '\r')

/-- JSON string body after the opening quote. Escape sequences are treated as
a parse failure (the assignee strings never contain them, and a failure only
means the fallback single-element treatment, as with any malformed input). -/
def parseJStr (cs : List Char) : Option (String × List Char) :=
  let body := cs.takeWhile (fun c => c ≠ '"' ∧ c ≠ '\\')
  match cs.drop body.length with
  | '"' :: rest => some (String.mk body, rest)
  | _ => none

/-- A JSON number: `-? int frac? exp?` with the JSON leading-zero rule. -/
def parseJNum (cs : List Char) : Option (ℚ × List Char) :=
  let (sgn, cs) : ℚ × List Char :=
    match cs with
    | '-' :: r => (-1, r)
    | _ => (1, cs)
  let ip := cs.takeWhile Char.isDigit
  if ip.isEmpty then none
  else if ip.length > 1 ∧ ip.head? = some '0' then none
  else
    let cs1 := cs.drop ip.length
    let (fp, cs2) : List Char × List Char :=
      match cs1 with
      | '.' :: r => (r.takeWhile Char.isDigit, r.dropWhile Char.isDigit)
      | _ => ([], cs1)
    if cs1.head? = some '.' ∧ fp.isEmpty then none
    else
      let (eOk, expo, cs3) : Bool × Int × List Char :=
        match cs2 with
        | 'e' :: r | 'E' :: r =>
          let (es, r) : Int × List Char :=
            match r with
            | '-' :: r2 => (-1, r2)
            | '+' :: r2 => (1, r2)
            | _ => (1, r)
          let ds := r.takeWhile Char.isDigit
          if ds.isEmpty then (false, 0, r)
          else (true, es * (digitsToNat ds : Int), r.drop ds.length)
        | _ => (true, 0, cs2)
      if eOk then
        some (sgn * ((digitsToNat ip : ℚ) + (digitsToNat fp : ℚ) / ((10 : ℚ) ^ fp.length))
                * (10 : ℚ) ^ expo, cs3)
      else none

mutual

/-- One JSON value, with recursion fuel. -/
def parseJVal (fuel : Nat) (cs : List Char) : Option (JVal × List Char) :=
  match fuel with
  | 0 => none
  | fuel + 1 =>
    match skipWs cs with
    | '"' :: r => (parseJStr r).map (fun p => (JVal.jstr p.1, p.2))
    | '[' :: r => parseJArr fuel r
    | 't' :: 'r' :: 'u' :: 'e' :: r => some (JVal.jbool true, r)
    | 'f' :: 'a' :: 'l' :: 's' :: 'e' :: r => some (JVal.jbool false, r)
    | 'n' :: 'u' :: 'l' :: 'l' :: r => some (JVal.jnull, r)
    | other => (parseJNum other).map (fun p => (JVal.jnum p.1, p.2))

/-- A JSON array body after the opening bracket. -/
def parseJArr (fuel : Nat) (cs : List Char) : Option (JVal × List Char) :=
  match fuel with
  | 0 => none
  | fuel + 1 =>
    match skipWs cs with
    | ']' :: r => some (JVal.jarr [], r)
    | other =>
      match parseJVal fuel other with
      | none => none
      | some (v, rest) =>
        match parseJArrTail fuel rest with
        | none => none
        | some (vs, rest') => some (JVal.jarr (v :: vs), rest')

/-- The `(',' value)* ']'` tail of a JSON array. -/
def parseJArrTail (fuel : Nat) (cs : List Char) : Option (List JVal × List Char) :=
  match fuel with
  | 0 => none
  | fuel + 1 =>
    match skipWs cs with
    | ']' :: r => some ([], r)
    | ',' :: r =>
      match parseJVal fuel r with
      | none => none
      | some (v, rest) =>
        match parseJArrTail fuel rest with
        | none => none
        | some (vs, rest') => some (v :: vs, rest')
    | _ => none

end

/-- `JSON.parse(s)`: one value consuming the entire input. -/
def jsonParseJS (s : String) : Option JVal :=
  match parseJVal (s.data.length + 1) s.data with
  | some (v, rest) => if skipWs rest = [] then some v else none
  | none => none

mutual

/-- Embed a parsed JSON value back into the cell-value type, so that the
subsequent `String(a || '')` step reuses the JavaScript conversions. -/
def jvalToJS : JVal → JSValue
  | .jstr s => .str s
  | .jnum q => .num q
  | .jbool b => .jsBool b
  | .jnull => .null
  | .jarr es => .arr (jvalListToJS es)

/-- Elementwise embedding of a JSON array. -/
def jvalListToJS : List JVal → List JSValue
  | [] => []
  | v :: vs => jvalToJS v :: jvalListToJS vs

end

/-- `Array.prototype.flat()` with default depth 1, on the assignee list. -/
def flattenOne (es : List JVal) : List JVal :=
  es.flatMap (fun v => match v with | .jarr xs => xs | v => [v])

/-- The assignee-parsing stage of `parseRawData` (`utils.ts` lines 118-145):
everything up to and including `flat().map(a => String(a || '')).filter(...)`,
before the `Owner` fallback. -/
def assigneesStage (rawAssign : JSValue) : List String :=
  let stage : List JVal :=
    if rawAssign.truthy then
      match rawAssign with
      | .arr es => es.map (fun v => JVal.jstr (jsToString v))
      | _ =>
        let str := jsTrim (jsToString rawAssign)
        if jsStartsWithChar '[' str ∧ jsEndsWithChar ']' str then
          match jsonParseJS (jsReplaceChar '\'' '\x22' str) with
          | some (JVal.jarr es) => es
          | some v => [v]
          | none => [JVal.jstr str]
        else if jsContainsChar ',' str then
          (jsSplitChar ',' str).map (fun s => JVal.jstr (jsTrim s))
        else [JVal.jstr str]
    else []
  ((flattenOne stage).map
      (fun a => if (jvalToJS a).truthy then jsToString (jvalToJS a) else "")).filter
    (fun a => jsTrim a ≠ "")

/-- A normalized raw row (`RawTicket` in `types.ts`): the canonical fields a
spreadsheet row may carry after header mapping. An absent field is
`undefined`. -/
structure RawTicket where
  Sr : JSValue := .undefined
  Subject : JSValue := .undefined
  Status : JSValue := .undefined
  ResolutionBy : JSValue := .undefined
  Assign : JSValue := .undefined
  Customer : JSValue := .undefined
  Priority : JSValue := .undefined
  TicketType : JSValue := .undefined
  Owner : JSValue := .undefined
  Rating : JSValue := .undefined
  Creation : JSValue := .undefined

/-- The canonical `Ticket` entity (`types.ts`). `priority` keeps the raw
value, mirroring the `(row.Priority || 'Medium') as any` cast in the source;
`resolvedAt = none` is the TypeScript `null`. -/
structure Ticket where
  id : String
  subject : String
  status : String
  assignees : List String
  customer : String
  priority : JSValue
  ticketType : String
  owner : String
  rating : ℚ
  createdAt : JSDate
  resolvedAt : Option JSDate
  resolutionTimeHours : ℚ

/-- The value of `x.toFixed(f)` read back as a number (ECMAScript `toFixed`:
the sign is taken off first, then the magnitude rounds half-up to `f`
fractional digits). `parseFloat(h.toFixed(2))` in the source is exactly this
round-trip. -/
def jsToFixedVal (f : Nat) (q : ℚ) : ℚ :=
  let m : Int := ⌊|q| * 10 ^ f + 1 / 2⌋
  (if q < 0 then -m else m) / ((10 : ℚ) ^ f)

/-- The string `x.toFixed(1)` (for the magnitudes that occur here, below the
exponential-notation threshold). -/
def jsToFixedStr1 (q : ℚ) : String :=
  let m : Nat := (⌊|q| * 10 + 1 / 2⌋).toNat
  (if q < 0 then "-" else "") ++ toString (m / 10) ++ "." ++ toString (m % 10)

/-- The per-row ticket builder: the body of the `data.map((row) => ...)`
callback in `parseRawData` (`utils.ts` lines 117-188). `fresh` is the
synthetic id this row would draw from `Math.random()` if `Sr` is absent. -/
def buildTicket (tz : Int) (fresh : String) (row : RawTicket) : Ticket :=
  let assignees0 := assigneesStage row.Assign
  let assignees :=
    if assignees0.isEmpty ∧ row.Owner.truthy then [jsToString row.Owner] else assignees0
  let statusStr0 := if row.Status.truthy then jsTrim (jsToString row.Status) else "Open"
  let lowerStatus := jsToLower statusStr0
  let statusStr :=
    if lowerStatus = "resolved" ∨ lowerStatus = "completed" ∨ lowerStatus = "verified" then
      "Closed"
    else statusStr0
  let created := parseCustomDate tz row.Creation
  let resolved : Option JSDate :=
    if statusStr = "Closed" ∧ row.ResolutionBy.truthy then
      some (parseCustomDate tz row.ResolutionBy)
    else none
  let hours : ℚ :=
    match resolved, created with
    | some (some rt), some ct =>
      if 0 < ct ∧ 0 < rt then ((rt - ct : Int) : ℚ) / (1000 * 60 * 60) else 0
    | _, _ => 0
  let tType := if row.TicketType.truthy then jsTrim (jsToString row.TicketType) else "Unspecified"
  { id := if row.Sr.truthy then jsToString row.Sr else fresh
    subject := if row.Subject.truthy then jsToString row.Subject else "No Subject"
    status := statusStr
    assignees := assignees
    customer := if row.Customer.truthy then jsToString row.Customer else "Unknown"
    priority := if row.Priority.truthy then row.Priority else .str "Medium"
    ticketType := if tType = "" then "Unspecified" else tType
    owner := if row.Owner.truthy then jsToString row.Owner else ""
    rating :=
      if row.Rating.truthy then
        match parseFloatJS (jsToString row.Rating) with
        | none => 0
        | some q => if q = 0 then 0 else q
      else 0
    createdAt := created
    resolvedAt := resolved
    resolutionTimeHours := max 0 (jsToFixedVal 2 hours) }

/-- The row loop of `parseRawData`, carrying the current row index for the
fresh-id supply. -/
def parseRowsFrom (tz : Int) (fresh : Nat → String) : Nat → List RawTicket → List Ticket
  | _, [] => []
  | i, row :: rest => buildTicket tz (fresh i) row :: parseRowsFrom tz fresh (i + 1) rest

/-- `parseRawData` (`utils.ts` lines 116-190). -/
def parseRawData (tz : Int) (fresh : Nat → String) (data : List RawTicket) : List Ticket :=
  parseRowsFrom tz fresh 0 data

/-- The message thrown by `processFile` when no tickets were parsed
(`DataUpload.tsx` lines 98-100). -/
def noTicketsMsg : String := "Could not parse any tickets. Please check your column headers."

/-- The zero-tickets check of `processFile` (`DataUpload.tsx` lines 96-100):
the only error condition downstream of the per-row builder. -/
def checkParsed (tickets : List Ticket) : Except String (List Ticket) :=
  if tickets.length = 0 then .error noTicketsMsg else .ok tickets

/-- The percentage-difference helper `getPctDiff` of the dashboard stats
(`Skeletons.tsx` lines 103-106). -/
def getPctDiff (curr pre : ℚ) : ℚ :=
  if pre = 0 then (if curr = 0 then 0 else 100) else (curr - pre) / pre * 100

/-- The trend formatter `formatTrend` of the dashboard stats (`Skeletons.tsx`
lines 108-110). -/
def formatTrend (diff : ℚ) (suffix : String) : String :=
  (if 0 < diff then "+" else "") ++ jsToFixedStr1 diff ++ suffix

/-- The per-agent accumulator of `calculateAgentMetrics` (`utils.ts`
line 252). -/
structure AgentAcc where
  total : Nat
  ratingSum : ℚ
  timeSum : ℚ
  resolvedCount : Nat
  active : Nat

/-- The fresh accumulator `{ total: 0, ratingSum: 0, timeSum: 0,
resolvedCount: 0, active: 0 }`. -/
def emptyAcc : AgentAcc := ⟨0, 0, 0, 0, 0⟩

/-- One ticket's contribution to an agent's accumulator (`utils.ts` lines
268-276). -/
def bumpAcc (t : Ticket) (a : AgentAcc) : AgentAcc :=
  if t.status = "Closed" then
    { a with total := a.total + 1, ratingSum := a.ratingSum + t.rating,
             timeSum := a.timeSum + t.resolutionTimeHours,
             resolvedCount := a.resolvedCount + 1 }
  else
    { a with total := a.total + 1, active := a.active + 1 }

/-- The insertion-ordered `Map<string, ...>`: set-if-absent followed by an
in-place update of the entry (`utils.ts` lines 263-267). -/
def updMap (m : List (String × AgentAcc)) (k : String) (t : Ticket) :
    List (String × AgentAcc) :=
  match m with
  | [] => [(k, bumpAcc t emptyAcc)]
  | (k', a) :: rest =>
    if k' = k then (k', bumpAcc t a) :: rest else (k', a) :: updMap rest k t

/-- One assignee occurrence of one ticket (`utils.ts` lines 257-261): skip a
falsy (empty) assignee, trim, skip a whitespace-only assignee, then update the
map. -/
def stepAgent (t : Ticket) (m : List (String × AgentAcc)) (agent : String) :
    List (String × AgentAcc) :=
  if agent = "" then m
  else
    let cleanAgent := jsTrim agent
    if cleanAgent = "" then m else updMap m cleanAgent t

/-- The accumulation loop of `calculateAgentMetrics` (`utils.ts` lines
254-278), in ticket order and assignee order, the map in insertion order. -/
def agentMap (tickets : List Ticket) : List (String × AgentAcc) :=
  tickets.foldl (fun m t => t.assignees.foldl (stepAgent t) m) []

/-- The derived `AgentMetrics` record (`types.ts`). -/
structure AgentMetrics where
  email : String
  totalTickets : Nat
  avgRating : ℚ
  avgResolutionHours : ℚ
  activeTickets : Nat

/-- Turn one map entry into an `AgentMetrics` (`utils.ts` lines 283-289). -/
def metricsOfAcc (k : String) (a : AgentAcc) : AgentMetrics :=
  { email := k
    totalTickets := a.total
    avgRating := if 0 < a.resolvedCount then a.ratingSum / (a.resolvedCount : ℚ) else 0
    avgResolutionHours :=
      if 0 < a.resolvedCount then a.timeSum / (a.resolvedCount : ℚ) else 0
    activeTickets := a.active }

/-- The sort relation of `metrics.sort((a, b) => b.totalTickets -
a.totalTickets)`: descending by `totalTickets`. -/
def metricsGE (a b : AgentMetrics) : Prop := b.totalTickets ≤ a.totalTickets

instance : DecidableRel metricsGE := fun a b =>
  inferInstanceAs (Decidable (b.totalTickets ≤ a.totalTickets))

instance : IsTotal AgentMetrics metricsGE :=
  ⟨fun a b => Nat.le_total b.totalTickets a.totalTickets⟩

instance : IsTrans AgentMetrics metricsGE :=
  ⟨fun _ _ _ h1 h2 => Nat.le_trans h2 h1⟩

/-- `calculateAgentMetrics` (`utils.ts` lines 251-294). JavaScript's
`Array.prototype.sort` is stable, and a stable sort's output is uniquely
determined by the comparator and the input order, so it is modelled by the
stable insertion sort. The `if (key)` guard of the push loop is the
`filterMap` condition. -/
def calculateAgentMetrics (tickets : List Ticket) : List AgentMetrics :=
  let metrics := (agentMap tickets).filterMap
    (fun e => if e.1 = "" then none else some (metricsOfAcc e.1 e.2))
  List.insertionSort metricsGE metrics

/-- The status field of a built ticket, unfolded. -/
theorem buildTicket_status (tz : Int) (fresh : String) (row : RawTicket) :
    (buildTicket tz fresh row).status =
      (if (jsToLower (if row.Status.truthy then jsTrim (jsToString row.Status) else "Open") = "resolved" ∨
            jsToLower (if row.Status.truthy then jsTrim (jsToString row.Status) else "Open") = "completed" ∨
            jsToLower (if row.Status.truthy then jsTrim (jsToString row.Status) else "Open") = "verified") then
        "Closed"
      else (if row.Status.truthy then jsTrim (jsToString row.Status) else "Open")) := rfl

/-- The createdAt field of a built ticket, unfolded. -/
theorem buildTicket_createdAt (tz : Int) (fresh : String) (row : RawTicket) :
    (buildTicket tz fresh row).createdAt = parseCustomDate tz row.Creation := rfl

/-- The resolvedAt field of a built ticket, unfolded. -/
theorem buildTicket_resolvedAt (tz : Int) (fresh : String) (row : RawTicket) :
    (buildTicket tz fresh row).resolvedAt =
      (if (buildTicket tz fresh row).status = "Closed" ∧ row.ResolutionBy.truthy then
        some (parseCustomDate tz row.ResolutionBy)
      else none) := rfl

/-- The resolution-hours field of a built ticket, unfolded. -/
theorem buildTicket_rth (tz : Int) (fresh : String) (row : RawTicket) :
    (buildTicket tz fresh row).resolutionTimeHours =
      max 0 (jsToFixedVal 2
        (match (buildTicket tz fresh row).resolvedAt, (buildTicket tz fresh row).createdAt with
         | some (some rt), some ct =>
           if 0 < ct ∧ 0 < rt then ((rt - ct : Int) : ℚ) / (1000 * 60 * 60) else 0
         | _, _ => 0)) := rfl

/-- The rating field of a built ticket, unfolded. -/
theorem buildTicket_rating (tz : Int) (fresh : String) (row : RawTicket) :
    (buildTicket tz fresh row).rating =
      (if row.Rating.truthy then
        match parseFloatJS (jsToString row.Rating) with
        | none => 0
        | some q => if q = 0 then 0 else q
      else 0) := rfl

/-- The assignees field of a built ticket, unfolded. -/
theorem buildTicket_assignees (tz : Int) (fresh : String) (row : RawTicket) :
    (buildTicket tz fresh row).assignees =
      (if (assigneesStage row.Assign).isEmpty ∧ row.Owner.truthy then [jsToString row.Owner]
      else assigneesStage row.Assign) := rfl

/-- Claim C2: for every raw cell value, the date parser is claimed to return
either a valid instant or the epoch sentinel, never an invalid instant. The
code violates this: the string `"a-b-c"` survives to the manual
three-component branch, whose `parseInt` calls all yield NaN, so
`new Date(NaN, NaN, NaN)` — an Invalid Date, not the sentinel — is returned
(the function's own fallback comments and its `catch` show the sentinel was
the intent). This theorem evaluates the code at the failing input, for every
time-zone offset. -/
theorem claim_C2_eval (tz : Int) :
    parseCustomDate tz (.str "a-b-c") = (none : JSDate) ∧
    epochSentinel ≠ (none : JSDate) ∧
    parseCustomDate tz (.str "") = epochSentinel ∧
    parseCustomDate tz (.str "-") = epochSentinel ∧
    parseCustomDate tz (.str "null") = epochSentinel ∧
    parseCustomDate tz .null = epochSentinel ∧
    parseCustomDate tz .undefined = epochSentinel ∧
    parseCustomDate tz (.date none) = epochSentinel := by
  refine ⟨by rfl, by simp [epochSentinel], by rfl, by rfl, by rfl, by rfl, by rfl, by rfl⟩

/-- Claim C3: the date parser maps `"15-03-2024"` to March 15, 2024 and maps
`""` and `"-"` to the sentinel, a 4-digit first component being read as
`YYYY-MM-DD` and otherwise `DD-MM-YYYY` — as claimed; but `"15-03-2024"` goes
through `new Date(y, m, d)` (local midnight) while `"2024-03-15"` goes through
the engine's ISO parse (UTC midnight), so the two are the same instant exactly
when the local offset is zero. `1710460800000` is the UTC midnight of
2024-03-15; the offset `tz` is in minutes (any real-world offset satisfies
the bounds). -/
theorem claim_C3 (tz : Int) (h1 : -1440 ≤ tz) (h2 : tz ≤ 1440) :
    parseCustomDate tz (.str "15-03-2024") = some (1710460800000 - tz * 60000) ∧
    parseCustomDate tz (.str "2024-03-15") = some 1710460800000 ∧
    parseCustomDate tz (.str "") = epochSentinel ∧
    parseCustomDate tz (.str "-") = epochSentinel ∧
    (tz = 0 →
      parseCustomDate tz (.str "15-03-2024") = parseCustomDate tz (.str "2024-03-15")) := by
  have e1 : parseCustomDate tz (.str "15-03-2024") = timeClip (1710460800000 - tz * 60000) := by
    rfl
  have e2 : timeClip (1710460800000 - tz * 60000) = some (1710460800000 - tz * 60000) := by
    unfold timeClip
    rw [if_pos]
    omega
  refine ⟨e1.trans e2, by rfl, by rfl, by rfl, ?_⟩
  intro h
  subst h
  decide

/-- Witness for C3 at offset zero: the two formats agree there. -/
theorem claim_C3_witness :
    parseCustomDate 0 (.str "15-03-2024") = parseCustomDate 0 (.str "2024-03-15") :=
  (claim_C3 0 (by norm_num) (by norm_num)).2.2.2.2 rfl

/-- Counterexample to C3 as stated: at offset UTC+5:30 (330 minutes — e.g.
India), `"15-03-2024"` and `"2024-03-15"` parse to different instants. -/
theorem claim_C3_counterexample :
    parseCustomDate 330 (.str "15-03-2024") ≠ parseCustomDate 330 (.str "2024-03-15") := by
  decide

/-- Claim C4 (amended): the built status is `"Closed"` exactly when the
trimmed source status is one of `"Resolved"`, `"Completed"`, `"Verified"`
case-insensitively **or is itself the literal `"Closed"`**; any other present
(truthy) status passes through **trimmed**; an absent (falsy) status yields
`"Open"`. (The original claim's "exactly when one of the three" fails on a
source status of `"Closed"`, and values pass through trimmed, not
unchanged.) -/
theorem claim_C4 (tz : Int) (fresh : String) (row : RawTicket) :
    ((buildTicket tz fresh row).status = "Closed" ↔
      (row.Status.truthy = true ∧
        (jsToLower (jsTrim (jsToString row.Status)) = "resolved" ∨
         jsToLower (jsTrim (jsToString row.Status)) = "completed" ∨
         jsToLower (jsTrim (jsToString row.Status)) = "verified" ∨
         jsTrim (jsToString row.Status) = "Closed"))) ∧
    (row.Status.truthy = false → (buildTicket tz fresh row).status = "Open") ∧
    (row.Status.truthy = true →
      (buildTicket tz fresh row).status = "Closed" ∨
      (buildTicket tz fresh row).status = jsTrim (jsToString row.Status)) := by
  have hs := buildTicket_status tz fresh row
  by_cases hT : row.Status.truthy = true
  · rw [if_pos hT] at hs
    by_cases hC : (jsToLower (jsTrim (jsToString row.Status)) = "resolved" ∨
        jsToLower (jsTrim (jsToString row.Status)) = "completed" ∨
        jsToLower (jsTrim (jsToString row.Status)) = "verified")
    · rw [hs, if_pos hC]
      refine ⟨⟨fun _ => ⟨hT, ?_⟩, fun _ => rfl⟩,
        fun h => absurd (hT.symm.trans h) (by decide), fun _ => Or.inl rfl⟩
      rcases hC with h | h | h
      · exact Or.inl h
      · exact Or.inr (Or.inl h)
      · exact Or.inr (Or.inr (Or.inl h))
    · rw [hs, if_neg hC]
      refine ⟨⟨fun h => ⟨hT, Or.inr (Or.inr (Or.inr h))⟩, ?_⟩,
        fun h => absurd (hT.symm.trans h) (by decide), fun _ => Or.inr rfl⟩
      rintro ⟨-, h | h | h | h⟩
      · exact absurd (Or.inl h) hC
      · exact absurd (Or.inr (Or.inl h)) hC
      · exact absurd (Or.inr (Or.inr h)) hC
      · exact h
  · have hT' : row.Status.truthy = false := by simpa using hT
    rw [if_neg hT, if_neg (by decide)] at hs
    rw [hs]
    exact ⟨⟨fun h => absurd h (by decide), fun h => absurd (hT'.symm.trans h.1) (by decide)⟩,
      fun _ => rfl, fun h => absurd h hT⟩

/-- Counterexample to C4 as stated: a source status of exactly `"Closed"` is
not one of the three collapse synonyms, yet the built status is `"Closed"`,
so the claimed "exactly when" biconditional fails. -/
theorem claim_C4_counterexample :
    (buildTicket 0 "cx4" { Status := .str "Closed" }).status = "Closed" ∧
    ¬ (jsToLower (jsTrim (jsToString (JSValue.str "Closed"))) = "resolved" ∨
       jsToLower (jsTrim (jsToString (JSValue.str "Closed"))) = "completed" ∨
       jsToLower (jsTrim (jsToString (JSValue.str "Closed"))) = "verified") := by
  decide

/-- Witness for C4: a row with no status field builds to `"Open"`. -/
theorem claim_C4_witness : (buildTicket 0 "w4" {}).status = "Open" :=
  (claim_C4 0 "w4" {}).2.1 (by decide)

/-- Every entry surviving the assignee stage's final filter is
non-whitespace-only. -/
theorem assigneesStage_mem_trim (v : JSValue) (a : String) (h : a ∈ assigneesStage v) :
    jsTrim a ≠ "" := by
  simp only [assigneesStage] at h
  simpa using (List.mem_filter.mp h).2

/-- Claim C5 (amended): the assignees list is produced by the described
mechanism (stringify an array; parse a bracketed string as pseudo-JSON with
single quotes replaced, keeping the whole string on failure; split a
comma-containing string with each part trimmed; otherwise a singleton of the
trimmed string; flatten one level and drop empty/whitespace-only entries;
fall back to a singleton of the owner when the result is empty and an Owner
exists). The surviving entries are guaranteed non-whitespace-only but **not
necessarily trimmed** (array and pseudo-JSON elements keep their inner
whitespace), and the owner fallback is the raw stringified `Owner`, which may
itself be untrimmed or whitespace-only. The claim's three concrete examples
hold. -/
theorem claim_C5 (tz : Int) (fresh : String) (row : RawTicket) :
    (assigneesStage row.Assign ≠ [] →
      (buildTicket tz fresh row).assignees = assigneesStage row.Assign ∧
      ∀ a ∈ (buildTicket tz fresh row).assignees, jsTrim a ≠ "") ∧
    (assigneesStage row.Assign = [] → row.Owner.truthy = true →
      (buildTicket tz fresh row).assignees = [jsToString row.Owner]) ∧
    (assigneesStage row.Assign = [] → row.Owner.truthy = false →
      (buildTicket tz fresh row).assignees = []) ∧
    (buildTicket tz fresh { Assign := .str "['a@x.com', 'b@x.com']" }).assignees =
      ["a@x.com", "b@x.com"] ∧
    (buildTicket tz fresh { Assign := .str "a@x.com, b@x.com" }).assignees =
      ["a@x.com", "b@x.com"] ∧
    (buildTicket tz fresh { Assign := .str "", Owner := .str "c@x.com" }).assignees =
      ["c@x.com"] := by
  rw [buildTicket_assignees, buildTicket_assignees, buildTicket_assignees]
  refine ⟨?_, ?_, ?_, by rfl, by rfl, by rfl⟩
  · intro h
    rw [if_neg (by simp [List.isEmpty_iff, h])]
    exact ⟨rfl, fun a ha => assigneesStage_mem_trim _ a ha⟩
  · intro h hOwn
    rw [if_pos ⟨by simp [List.isEmpty_iff, h], hOwn⟩]
  · intro h hOwn
    rw [if_neg (by simp [hOwn]), h]

/-- Counterexample to C5 as stated: with an empty `Assign` and an `Owner` of
`" "` the built assignees list is `[" "]` — an entry that is whitespace-only
and untrimmed, contradicting "only non-empty trimmed strings". -/
theorem claim_C5_counterexample :
    (buildTicket 0 "cx5" { Assign := .str "", Owner := .str " " }).assignees = [" "] ∧
    jsTrim " " = "" := by
  decide

/-- Witness for C5: a plain single assignee string passes the stage
unchanged. -/
theorem claim_C5_witness :
    (buildTicket 0 "w5" { Assign := .str "x@y.com" }).assignees =
      assigneesStage (JSValue.str "x@y.com") :=
  ((claim_C5 0 "w5" { Assign := .str "x@y.com" }).1 (by decide)).1

/-- Claim C6 (amended): the built rating is 0 whenever the source rating
field is absent (falsy) or does not parse as a number, and otherwise is the
`parseFloat` value (with a parsed 0 kept as 0); the parsed value passes
through **without a sign check**, so a negative source rating yields a
negative built rating — non-negativity is not guaranteed. -/
theorem claim_C6 (tz : Int) (fresh : String) (row : RawTicket) :
    (row.Rating.truthy = false → (buildTicket tz fresh row).rating = 0) ∧
    (parseFloatJS (jsToString row.Rating) = none → (buildTicket tz fresh row).rating = 0) ∧
    (∀ q : ℚ, row.Rating.truthy = true → parseFloatJS (jsToString row.Rating) = some q →
      (buildTicket tz fresh row).rating = if q = 0 then 0 else q) := by
  refine ⟨fun h => ?_, fun h => ?_, fun q ht hq => ?_⟩
  · rw [buildTicket_rating, h, if_neg (by decide)]
  · rw [buildTicket_rating, h]
    split <;> rfl
  · rw [buildTicket_rating, if_pos ht, hq]

/-- Counterexample to C6 as stated: a source rating of `"-3"` builds a
negative rating, refuting the claimed non-negativity. -/
theorem claim_C6_counterexample :
    (buildTicket 0 "cx6" { Rating := .str "-3" }).rating = -3 ∧
    (buildTicket 0 "cx6" { Rating := .str "-3" }).rating < 0 := by
  have hp : parseFloatJS (jsToString (JSValue.str "-3")) =
      some ((-1 : ℚ) * (((3:Nat):ℚ) + ((0:Nat):ℚ) / (10:ℚ) ^ (0:Nat)) * (10:ℚ) ^ (0:Int)) :=
    rfl
  have h3 : ((-1 : ℚ) * (((3:Nat):ℚ) + ((0:Nat):ℚ) / (10:ℚ) ^ (0:Nat)) * (10:ℚ) ^ (0:Int)) =
      -3 := by norm_num
  have hr : (buildTicket 0 "cx6" { Rating := .str "-3" }).rating = -3 := by
    rw [buildTicket_rating, if_pos (by decide), hp, h3]
    show (if (-3:ℚ) = 0 then (0:ℚ) else -3) = -3
    rw [if_neg (by norm_num)]
  exact ⟨hr, by rw [hr]; norm_num⟩

/-- Witness for C6: a source rating of `"4"` parses and is kept. -/
theorem claim_C6_witness :
    (buildTicket 0 "w6" { Rating := .str "4" }).rating = if (4:ℚ) = 0 then 0 else 4 :=
  (claim_C6 0 "w6" { Rating := .str "4" }).2.2 4 (by decide)
    (by
      have hp : parseFloatJS (jsToString (JSValue.str "4")) =
          some ((1 : ℚ) * (((4:Nat):ℚ) + ((0:Nat):ℚ) / (10:ℚ) ^ (0:Nat)) * (10:ℚ) ^ (0:Int)) :=
        rfl
      rw [hp]
      norm_num)

/-- Claim C7 (amended): `resolvedAt` is populated (non-null) **exactly** when
the built status is `"Closed"` and a resolution-date source value is present
(truthy); when populated it holds whatever the date parser returned for that
value — which is the epoch sentinel, or even an invalid instant, when the
value does not parse to a valid instant. (The original claim's "otherwise the
absent marker" fails: an unparseable `ResolutionBy` on a closed ticket yields
a populated sentinel, not `null`.) -/
theorem claim_C7 (tz : Int) (fresh : String) (row : RawTicket) :
    ((buildTicket tz fresh row).resolvedAt ≠ none ↔
      ((buildTicket tz fresh row).status = "Closed" ∧ row.ResolutionBy.truthy = true)) ∧
    (∀ d : JSDate, (buildTicket tz fresh row).resolvedAt = some d →
      d = parseCustomDate tz row.ResolutionBy) := by
  rw [buildTicket_resolvedAt]
  by_cases h : (buildTicket tz fresh row).status = "Closed" ∧ row.ResolutionBy.truthy = true
  · rw [if_pos h]
    exact ⟨⟨fun _ => h, fun _ => by simp⟩, fun d hd => (Option.some_inj.mp hd).symm⟩
  · rw [if_neg h]
    exact ⟨⟨fun hn => absurd rfl hn, fun hc => absurd hc h⟩, fun d hd => by simp at hd⟩

/-- Counterexample to C7 as stated: a closed ticket whose `ResolutionBy` is
`"-"` (which parses to the sentinel, not a valid instant) still gets a
populated `resolvedAt` — the epoch sentinel — instead of the absent
marker. -/
theorem claim_C7_counterexample :
    (buildTicket 0 "cx7" { Status := .str "Resolved", ResolutionBy := .str "-" }).resolvedAt =
      some epochSentinel ∧
    some epochSentinel ≠ (none : Option JSDate) := by
  exact ⟨by decide, by decide⟩

/-- Witness for C7: a populated `resolvedAt` holds the date parser's result
for the source value. -/
theorem claim_C7_witness :
    (some 5 : JSDate) = parseCustomDate 0 (JSValue.date (some 5)) :=
  (claim_C7 0 "w7" { Status := .str "Resolved", ResolutionBy := .date (some 5) }).2
    (some 5) rfl

/-- Claim C8 (amended): the percentage-change trend string is
`((current − previous) / previous) × 100` formatted to one decimal place,
with the special case that a zero previous yields 0 when current is also 0
and 100 otherwise; the explicit `+` sign appears exactly on **strictly
positive** deltas (a zero delta renders as `"0.0%"` with no sign, as the
claim's own `previous = 0`, `current = 0` example shows — so "a `+` sign for
every non-negative value" fails at zero). -/
theorem claim_C8 (curr pre : ℚ) :
    formatTrend (getPctDiff curr pre) "%" =
      (if 0 < (if pre = 0 then (if curr = 0 then (0:ℚ) else 100) else (curr - pre) / pre * 100)
        then "+" else "") ++
        jsToFixedStr1
          (if pre = 0 then (if curr = 0 then (0:ℚ) else 100) else (curr - pre) / pre * 100) ++
        "%" ∧
    formatTrend (getPctDiff 0 0) "%" = "0.0%" := by
  constructor
  · rfl
  · have h0 : getPctDiff 0 0 = 0 := by rw [getPctDiff, if_pos rfl, if_pos rfl]
    have hm : (⌊|(0:ℚ)| * 10 + 1 / 2⌋).toNat = 0 := by norm_num
    rw [formatTrend, h0, if_neg (by norm_num), jsToFixedStr1]
    rw [if_neg (by norm_num), hm]
    decide

/-- Counterexample to C8 as stated: at `current = 0`, `previous = 0` the
delta 0 is non-negative, yet the produced string is `"0.0%"`, not the
`"+0.0%"` that an explicit `+` on every non-negative value would demand. -/
theorem claim_C8_counterexample :
    getPctDiff 0 0 = 0 ∧
    formatTrend (getPctDiff 0 0) "%" = "0.0%" ∧
    formatTrend (getPctDiff 0 0) "%" ≠ "+" ++ jsToFixedStr1 (getPctDiff 0 0) ++ "%" := by
  have h0 : getPctDiff 0 0 = 0 := by rw [getPctDiff, if_pos rfl, if_pos rfl]
  have hm : (⌊|(0:ℚ)| * 10 + 1 / 2⌋).toNat = 0 := by norm_num
  have hs : jsToFixedStr1 (0:ℚ) = "0.0" := by
    rw [jsToFixedStr1, if_neg (by norm_num), hm]
    decide
  have ht : formatTrend (getPctDiff 0 0) "%" = "0.0%" := by
    rw [formatTrend, h0, if_neg (by norm_num), hs]
    decide
  refine ⟨h0, ht, ?_⟩
  rw [ht, h0, hs]
  decide

/-- `toFixed` of 0 is 0. -/
theorem jsToFixedVal_zero : jsToFixedVal 2 (0:ℚ) = 0 := by
  norm_num [jsToFixedVal]

/-- Claim C1: for every raw row the built ticket's `resolutionTimeHours` is
non-negative; it equals the difference `resolvedAt − createdAt` expressed in
hours, rounded to 2 decimal places (and clamped at 0 when negative), whenever
both instants are valid and strictly after the epoch sentinel; in every other
case it is 0. -/
theorem claim_C1 (tz : Int) (fresh : String) (row : RawTicket) :
    0 ≤ (buildTicket tz fresh row).resolutionTimeHours ∧
    (∀ ct rt : Int, (buildTicket tz fresh row).createdAt = some ct →
      (buildTicket tz fresh row).resolvedAt = some (some rt) → 0 < ct → 0 < rt →
      (buildTicket tz fresh row).resolutionTimeHours =
        max 0 (jsToFixedVal 2 (((rt - ct : Int) : ℚ) / (1000 * 60 * 60)))) ∧
    ((¬ ∃ ct rt : Int, (buildTicket tz fresh row).createdAt = some ct ∧
        (buildTicket tz fresh row).resolvedAt = some (some rt) ∧ 0 < ct ∧ 0 < rt) →
      (buildTicket tz fresh row).resolutionTimeHours = 0) := by
  have hr := buildTicket_rth tz fresh row
  refine ⟨by rw [hr]; exact le_max_left 0 _, ?_, ?_⟩
  · intro ct rt hct hrt h1 h2
    rw [hr, hct, hrt]
    show max 0 (jsToFixedVal 2
      (if 0 < ct ∧ 0 < rt then ((rt - ct : Int) : ℚ) / (1000 * 60 * 60) else 0)) = _
    rw [if_pos ⟨h1, h2⟩]
  · intro h
    rcases hra : (buildTicket tz fresh row).resolvedAt with - | d
    · rw [hr, hra]
      show max 0 (jsToFixedVal 2 0) = 0
      rw [jsToFixedVal_zero, max_self]
    · rcases hca : (buildTicket tz fresh row).createdAt with - | ct
      · rw [hr, hra, hca]
        rcases d with - | rt
        · show max 0 (jsToFixedVal 2 0) = 0
          rw [jsToFixedVal_zero, max_self]
        · show max 0 (jsToFixedVal 2 0) = 0
          rw [jsToFixedVal_zero, max_self]
      · rcases d with - | rt
        · rw [hr, hra, hca]
          show max 0 (jsToFixedVal 2 0) = 0
          rw [jsToFixedVal_zero, max_self]
        · rw [hr, hra, hca]
          show max 0 (jsToFixedVal 2
            (if 0 < ct ∧ 0 < rt then ((rt - ct : Int) : ℚ) / (1000 * 60 * 60) else 0)) = 0
          rw [if_neg (fun hc => h ⟨ct, rt, hca, hra, hc.1, hc.2⟩), jsToFixedVal_zero, max_self]

/-- A concrete row: resolved, created at epoch+1h, resolution at epoch+2h. -/
def rowW1 : RawTicket :=
  { Status := .str "Resolved", Creation := .date (some 3600000),
    ResolutionBy := .date (some 7200000) }

/-- Witness for C1: a ticket created at epoch+1h and resolved at epoch+2h
gets the rounded, clamped hour difference. -/
theorem claim_C1_witness :
    (buildTicket 0 "w1" rowW1).resolutionTimeHours =
      max 0 (jsToFixedVal 2 (((7200000 - 3600000 : Int) : ℚ) / (1000 * 60 * 60))) :=
  (claim_C1 0 "w1" rowW1).2.1 3600000 7200000 rfl rfl (by decide) (by decide)

/-- Index characterization of the row loop. -/
theorem parseRowsFrom_getElem (tz : Int) (fresh : Nat → String) :
    ∀ (data : List RawTicket) (k i : Nat),
      (parseRowsFrom tz fresh k data)[i]? =
        (data[i]?).map (fun row => buildTicket tz (fresh (k + i)) row) := by
  intro data
  induction data with
  | nil => intro k i; simp [parseRowsFrom]
  | cons row rest ih =>
    intro k i
    cases i with
    | zero => simp [parseRowsFrom]
    | succ n =>
      simp only [parseRowsFrom, List.getElem?_cons_succ]
      rw [ih (k + 1) n, show k + 1 + n = k + (n + 1) from by omega]

/-- Length preservation of the row loop. -/
theorem parseRowsFrom_length (tz : Int) (fresh : Nat → String) :
    ∀ (data : List RawTicket) (k : Nat),
      (parseRowsFrom tz fresh k data).length = data.length := by
  intro data
  induction data with
  | nil => intro k; rfl
  | cons row rest ih => intro k; simp [parseRowsFrom, ih]

/-- Claim C10: the per-row builder is total — it is a function in this
embedding, producing exactly one ticket per input row, in input order — and
the only error reported to the caller downstream of it is the file-level
zero-rows condition: `processFile`'s check fails exactly on an empty row
list. -/
theorem claim_C10 (tz : Int) (fresh : Nat → String) (data : List RawTicket) :
    (parseRawData tz fresh data).length = data.length ∧
    (∀ i : Nat, (parseRawData tz fresh data)[i]? =
      (data[i]?).map (fun row => buildTicket tz (fresh i) row)) ∧
    (data = [] → checkParsed (parseRawData tz fresh data) = .error noTicketsMsg) ∧
    (data ≠ [] → checkParsed (parseRawData tz fresh data) = .ok (parseRawData tz fresh data)) := by
  refine ⟨parseRowsFrom_length tz fresh data 0, ?_, ?_, ?_⟩
  · intro i
    have h := parseRowsFrom_getElem tz fresh data 0 i
    simpa using h
  · intro h
    subst h
    rfl
  · intro h
    have hl : (parseRawData tz fresh data).length = data.length :=
      parseRowsFrom_length tz fresh data 0
    rw [checkParsed, if_neg]
    rw [hl]
    simpa using h

/-- Witness for C10: the empty row list is reported as the zero-tickets
error. -/
theorem claim_C10_witness :
    checkParsed (parseRawData 0 (fun _ => "w10") []) = .error noTicketsMsg :=
  (claim_C10 0 (fun _ => "w10") []).2.2.1 rfl

/-- Spec side (from the claim): the assignee occurrences contributed by one
ticket's assignee list — one trimmed key per non-empty, non-whitespace-only
assignee string, in order, paired with the ticket. -/
def occsOfL (t : Ticket) : List String → List (String × Ticket)
  | [] => []
  | s :: rest =>
    if s = "" then occsOfL t rest
    else if jsTrim s = "" then occsOfL t rest
    else (jsTrim s, t) :: occsOfL t rest

/-- The occurrences of one ticket. -/
def occsOfTicket (t : Ticket) : List (String × Ticket) := occsOfL t t.assignees

/-- Spec side: all assignee occurrences of a ticket population, in ticket
order then assignee order. -/
def occurrences : List Ticket → List (String × Ticket)
  | [] => []
  | t :: ts => occsOfTicket t ++ occurrences ts

/-- One occurrence processed into the map. -/
def stepOcc (m : List (String × AgentAcc)) (o : String × Ticket) :
    List (String × AgentAcc) :=
  updMap m o.1 o.2

/-- Processing a list of occurrences into the map. -/
def runOccs (occs : List (String × Ticket)) (m : List (String × AgentAcc)) :
    List (String × AgentAcc) :=
  occs.foldl stepOcc m

/-- One accumulation step, occurrence-shaped. -/
def bumpStep (a : AgentAcc) (o : String × Ticket) : AgentAcc := bumpAcc o.2 a

/-- Spec side: the accumulator an agent key ends up with — the fold of its
own occurrences. -/
def accSpec (occs : List (String × Ticket)) (k : String) : AgentAcc :=
  (occs.filter (fun o => o.1 = k)).foldl bumpStep emptyAcc

/-- Spec side: an agent's occurrences on closed tickets. -/
def closedOccs (occs : List (String × Ticket)) (k : String) : List (String × Ticket) :=
  (occs.filter (fun o => o.1 = k)).filter (fun o => o.2.status = "Closed")

/-- `stepAgent`, unfolded. -/
theorem stepAgent_eq (t : Ticket) (m : List (String × AgentAcc)) (agent : String) :
    stepAgent t m agent =
      if agent = "" then m
      else if jsTrim agent = "" then m else updMap m (jsTrim agent) t := rfl

/-- `occsOfL`, unfolded on a cons. -/
theorem occsOfL_cons (t : Ticket) (s : String) (rest : List String) :
    occsOfL t (s :: rest) =
      if s = "" then occsOfL t rest
      else if jsTrim s = "" then occsOfL t rest
      else (jsTrim s, t) :: occsOfL t rest := rfl

/-- The inner assignee loop of `calculateAgentMetrics` processes exactly the
ticket's occurrences. -/
theorem foldl_stepAgent (t : Ticket) :
    ∀ (l : List String) (m : List (String × AgentAcc)),
      l.foldl (stepAgent t) m = runOccs (occsOfL t l) m := by
  intro l
  induction l with
  | nil => intro m; rfl
  | cons s rest ih =>
    intro m
    rw [List.foldl_cons, stepAgent_eq, occsOfL_cons]
    by_cases h1 : s = ""
    · rw [if_pos h1, if_pos h1, ih]
    · rw [if_neg h1, if_neg h1]
      by_cases h2 : jsTrim s = ""
      · rw [if_pos h2, if_pos h2, ih]
      · rw [if_neg h2, if_neg h2, ih]
        rfl

/-- The whole accumulation loop processes exactly the population's
occurrences. -/
theorem agentMap_eq_runOccs :
    ∀ (ts : List Ticket) (m : List (String × AgentAcc)),
      ts.foldl (fun m t => t.assignees.foldl (stepAgent t) m) m =
        runOccs (occurrences ts) m := by
  intro ts
  induction ts with
  | nil => intro m; rfl
  | cons t rest ih =>
    intro m
    rw [List.foldl_cons, foldl_stepAgent t t.assignees m, ih]
    show runOccs (occurrences rest) (runOccs (occsOfTicket t) m) = _
    rw [occurrences, runOccs, runOccs, runOccs, List.foldl_append]

/-- First-match lookup in the association-list map. -/
def alookup : List (String × AgentAcc) → String → Option AgentAcc
  | [], _ => none
  | (k', a) :: m, k => if k' = k then some a else alookup m k

/-- Keys after a map update: unchanged when present, appended when new. -/
theorem updMap_keys (m : List (String × AgentAcc)) (k : String) (t : Ticket) :
    (updMap m k t).map Prod.fst =
      if k ∈ m.map Prod.fst then m.map Prod.fst else m.map Prod.fst ++ [k] := by
  induction m with
  | nil => simp [updMap]
  | cons p rest ih =>
    obtain ⟨k₀, a⟩ := p
    by_cases h : k₀ = k
    · subst h
      simp [updMap]
    · have hne : ¬ (k = k₀) := fun e => h e.symm
      simp only [updMap, if_neg h, List.map_cons, ih]
      by_cases hm : k ∈ rest.map Prod.fst
      · rw [if_pos hm, if_pos (List.mem_cons_of_mem _ hm)]
      · rw [if_neg hm, if_neg (by simp [hne, hm]), List.cons_append]

/-- Lookup after a map update. -/
theorem alookup_updMap (m : List (String × AgentAcc)) (k : String) (t : Ticket)
    (k' : String) :
    alookup (updMap m k t) k' =
      if k' = k then some (bumpAcc t ((alookup m k).getD emptyAcc))
      else alookup m k' := by
  induction m with
  | nil =>
    by_cases h : k' = k
    · subst h
      simp [updMap, alookup]
    · simp [updMap, alookup, h, Ne.symm h]
  | cons p rest ih =>
    obtain ⟨k₀, a⟩ := p
    by_cases h0 : k₀ = k
    · subst h0
      by_cases h : k' = k₀
      · subst h
        simp [updMap, alookup]
      · simp [updMap, alookup, h, Ne.symm h]
    · by_cases h : k₀ = k'
      · subst h
        simp [updMap, alookup, h0, Ne.symm h0]
      · by_cases hk : k' = k
        · subst hk
          simp [updMap, alookup, h0, h, Ne.symm h0, ih]
        · simp [updMap, alookup, h0, h, hk, ih]

/-- Membership in the map's keys is exactly a successful lookup. -/
theorem mem_keys_iff_alookup (m : List (String × AgentAcc)) (k : String) :
    k ∈ m.map Prod.fst ↔ alookup m k ≠ none := by
  induction m with
  | nil => simp [alookup]
  | cons p rest ih =>
    obtain ⟨k₀, a⟩ := p
    by_cases h : k₀ = k
    · subst h
      simp [alookup]
    · rw [List.map_cons, alookup, if_neg h]
      simp only [List.mem_cons, ih]
      constructor
      · rintro (e | hm)
        · exact absurd e.symm h
        · exact hm
      · exact fun hm => Or.inr hm

/-- A bound pair in a map with distinct keys is the lookup result. -/
theorem alookup_of_mem (m : List (String × AgentAcc)) (k : String) (a : AgentAcc)
    (hnd : (m.map Prod.fst).Nodup) (hm : (k, a) ∈ m) : alookup m k = some a := by
  induction m with
  | nil => simp at hm
  | cons p rest ih =>
    obtain ⟨k₀, a₀⟩ := p
    rcases List.mem_cons.mp hm with he | hm'
    · cases he
      rw [alookup, if_pos rfl]
    · rw [alookup]
      have hk : k₀ ≠ k := by
        intro e
        subst e
        have : k₀ ∈ rest.map Prod.fst := List.mem_map.mpr ⟨(k₀, a), hm', rfl⟩
        exact (List.nodup_cons.mp hnd).1 this
      rw [if_neg hk]
      exact ih (List.nodup_cons.mp hnd).2 hm'

/-- `accSpec` of a key with no occurrences is the empty accumulator. -/
theorem accSpec_of_not_mem (occs : List (String × Ticket)) (k : String)
    (h : k ∉ occs.map Prod.fst) : accSpec occs k = emptyAcc := by
  unfold accSpec
  rw [List.filter_eq_nil_iff.mpr]
  · rfl
  · intro o ho
    simp only [decide_eq_true_eq]
    exact fun e => h (List.mem_map.mpr ⟨o, ho, e⟩)

/-- `accSpec` after appending one occurrence. -/
theorem accSpec_append (occs : List (String × Ticket)) (o : String × Ticket) (k : String) :
    accSpec (occs ++ [o]) k =
      if o.1 = k then bumpAcc o.2 (accSpec occs k) else accSpec occs k := by
  unfold accSpec
  rw [List.filter_append, List.foldl_append]
  by_cases h : o.1 = k
  · rw [if_pos h]
    simp [List.filter, h]
    rfl
  · rw [if_neg h]
    simp [List.filter, h]

/-- The accumulation invariant: after processing a list of occurrences the
map's keys are exactly the occurrence keys, without duplicates, and each key
is bound to the fold of its own occurrences. -/
theorem runOccs_inv (occs : List (String × Ticket)) :
    ((runOccs occs []).map Prod.fst).Nodup ∧
    (∀ k, k ∈ (runOccs occs []).map Prod.fst ↔ k ∈ occs.map Prod.fst) ∧
    (∀ k, alookup (runOccs occs []) k =
      if k ∈ occs.map Prod.fst then some (accSpec occs k) else none) := by
  induction occs using List.reverseRecOn with
  | nil =>
    refine ⟨by simp [runOccs], by simp [runOccs], fun k => by simp [runOccs, alookup]⟩
  | append_singleton occs o ih =>
    obtain ⟨ihN, ihM, ihL⟩ := ih
    have hrun : runOccs (occs ++ [o]) [] = updMap (runOccs occs []) o.1 o.2 := by
      rw [runOccs, List.foldl_append]
      rfl
    have hmemo : o.1 ∈ (runOccs occs []).map Prod.fst ↔ o.1 ∈ occs.map Prod.fst := ihM o.1
    refine ⟨?_, ?_, ?_⟩
    · rw [hrun, updMap_keys]
      by_cases hm : o.1 ∈ (runOccs occs []).map Prod.fst
      · rw [if_pos hm]
        exact ihN
      · rw [if_neg hm]
        refine List.Nodup.append ihN (List.nodup_singleton _) ?_
        intro x hx hx1
        rw [List.mem_singleton] at hx1
        subst hx1
        exact hm hx
    · intro k
      rw [hrun, updMap_keys, List.map_append]
      by_cases hm : o.1 ∈ (runOccs occs []).map Prod.fst
      · rw [if_pos hm, ihM k, List.mem_append]
        constructor
        · exact fun h => Or.inl h
        · rintro (h | h)
          · exact h
          · rw [List.map_singleton, List.mem_singleton] at h
            subst h
            exact hmemo.mp hm
      · rw [if_neg hm, List.mem_append, List.mem_append, ihM k, List.map_singleton]
    · intro k
      rw [hrun, alookup_updMap, List.map_append, List.map_singleton]
      by_cases hk : k = o.1
      · subst hk
        rw [if_pos rfl, if_pos (List.mem_append.mpr (Or.inr (List.mem_singleton.mpr rfl))),
          accSpec_append, if_pos rfl, ihL o.1]
        by_cases hm : o.1 ∈ occs.map Prod.fst
        · rw [if_pos hm]
          rfl
        · rw [if_neg hm, accSpec_of_not_mem occs o.1 hm]
          rfl
      · rw [if_neg hk, ihL k, accSpec_append]
        by_cases hm : k ∈ occs.map Prod.fst
        · rw [if_pos hm, if_pos (List.mem_append.mpr (Or.inl hm)),
            if_neg (fun e => hk e.symm)]
        · have hc : k ∉ occs.map Prod.fst ++ [o.1] := by
            rw [List.mem_append, List.mem_singleton]
            rintro (h | h)
            · exact hm h
            · exact hk h
          rw [if_neg hm, if_neg hc]

/-- A bump always increments `total`. -/
theorem bumpStep_total (a : AgentAcc) (o : String × Ticket) :
    (bumpStep a o).total = a.total + 1 := by
  unfold bumpStep bumpAcc
  split <;> rfl

/-- The fold counts every occurrence in `total`. -/
theorem foldl_bumpStep_total :
    ∀ (l : List (String × Ticket)) (a : AgentAcc),
      (l.foldl bumpStep a).total = a.total + l.length := by
  intro l
  induction l with
  | nil => intro a; rfl
  | cons o rest ih =>
    intro a
    rw [List.foldl_cons, ih, bumpStep_total, List.length_cons]
    omega

/-- The fold counts the closed occurrences in `resolvedCount`. -/
theorem foldl_bumpStep_resolved :
    ∀ (l : List (String × Ticket)) (a : AgentAcc),
      (l.foldl bumpStep a).resolvedCount =
        a.resolvedCount + (l.filter (fun o => o.2.status = "Closed")).length := by
  intro l
  induction l with
  | nil => intro a; rfl
  | cons o rest ih =>
    intro a
    rw [List.foldl_cons, ih]
    by_cases h : o.2.status = "Closed"
    · have hf : List.filter (fun o => decide (o.2.status = "Closed")) (o :: rest) =
          o :: List.filter (fun o => decide (o.2.status = "Closed")) rest := by
        simp [List.filter_cons, h]
      have hb : (bumpStep a o).resolvedCount = a.resolvedCount + 1 := by
        unfold bumpStep bumpAcc
        rw [if_pos h]
      rw [hb, hf, List.length_cons]
      omega
    · have hf : List.filter (fun o => decide (o.2.status = "Closed")) (o :: rest) =
          List.filter (fun o => decide (o.2.status = "Closed")) rest := by
        simp [List.filter_cons, h]
      have hb : (bumpStep a o).resolvedCount = a.resolvedCount := by
        unfold bumpStep bumpAcc
        rw [if_neg h]
      rw [hb, hf]

/-- The fold counts the non-closed occurrences in `active`. -/
theorem foldl_bumpStep_active :
    ∀ (l : List (String × Ticket)) (a : AgentAcc),
      (l.foldl bumpStep a).active =
        a.active + (l.filter (fun o => ¬ o.2.status = "Closed")).length := by
  intro l
  induction l with
  | nil => intro a; rfl
  | cons o rest ih =>
    intro a
    rw [List.foldl_cons, ih]
    by_cases h : o.2.status = "Closed"
    · have hf : List.filter (fun o => decide (¬ o.2.status = "Closed")) (o :: rest) =
          List.filter (fun o => decide (¬ o.2.status = "Closed")) rest := by
        simp [List.filter_cons, h]
      have hb : (bumpStep a o).active = a.active := by
        unfold bumpStep bumpAcc
        rw [if_pos h]
      rw [hb, hf]
    · have hf : List.filter (fun o => decide (¬ o.2.status = "Closed")) (o :: rest) =
          o :: List.filter (fun o => decide (¬ o.2.status = "Closed")) rest := by
        simp [List.filter_cons, h]
      have hb : (bumpStep a o).active = a.active + 1 := by
        unfold bumpStep bumpAcc
        rw [if_neg h]
      rw [hb, hf, List.length_cons]
      omega

/-- The fold sums the closed occurrences' ratings in `ratingSum`. -/
theorem foldl_bumpStep_ratingSum :
    ∀ (l : List (String × Ticket)) (a : AgentAcc),
      (l.foldl bumpStep a).ratingSum =
        a.ratingSum + ((l.filter (fun o => o.2.status = "Closed")).map
          (fun o => o.2.rating)).sum := by
  intro l
  induction l with
  | nil => intro a; simp
  | cons o rest ih =>
    intro a
    rw [List.foldl_cons, ih]
    by_cases h : o.2.status = "Closed"
    · have hf : List.filter (fun o => decide (o.2.status = "Closed")) (o :: rest) =
          o :: List.filter (fun o => decide (o.2.status = "Closed")) rest := by
        simp [List.filter_cons, h]
      have hb : (bumpStep a o).ratingSum = a.ratingSum + o.2.rating := by
        unfold bumpStep bumpAcc
        rw [if_pos h]
      rw [hb, hf, List.map_cons, List.sum_cons]
      ring
    · have hf : List.filter (fun o => decide (o.2.status = "Closed")) (o :: rest) =
          List.filter (fun o => decide (o.2.status = "Closed")) rest := by
        simp [List.filter_cons, h]
      have hb : (bumpStep a o).ratingSum = a.ratingSum := by
        unfold bumpStep bumpAcc
        rw [if_neg h]
      rw [hb, hf]

/-- The fold sums the closed occurrences' resolution hours in `timeSum`. -/
theorem foldl_bumpStep_timeSum :
    ∀ (l : List (String × Ticket)) (a : AgentAcc),
      (l.foldl bumpStep a).timeSum =
        a.timeSum + ((l.filter (fun o => o.2.status = "Closed")).map
          (fun o => o.2.resolutionTimeHours)).sum := by
  intro l
  induction l with
  | nil => intro a; simp
  | cons o rest ih =>
    intro a
    rw [List.foldl_cons, ih]
    by_cases h : o.2.status = "Closed"
    · have hf : List.filter (fun o => decide (o.2.status = "Closed")) (o :: rest) =
          o :: List.filter (fun o => decide (o.2.status = "Closed")) rest := by
        simp [List.filter_cons, h]
      have hb : (bumpStep a o).timeSum = a.timeSum + o.2.resolutionTimeHours := by
        unfold bumpStep bumpAcc
        rw [if_pos h]
      rw [hb, hf, List.map_cons, List.sum_cons]
      ring
    · have hf : List.filter (fun o => decide (o.2.status = "Closed")) (o :: rest) =
          List.filter (fun o => decide (o.2.status = "Closed")) rest := by
        simp [List.filter_cons, h]
      have hb : (bumpStep a o).timeSum = a.timeSum := by
        unfold bumpStep bumpAcc
        rw [if_neg h]
      rw [hb, hf]

/-- Occurrence keys are never the empty string. -/
theorem occsOfL_keys_ne (t : Ticket) :
    ∀ (l : List String) (k : String), k ∈ (occsOfL t l).map Prod.fst → k ≠ "" := by
  intro l
  induction l with
  | nil => intro k hk; simp [occsOfL] at hk
  | cons s rest ih =>
    intro k hk
    rw [occsOfL_cons] at hk
    by_cases h1 : s = ""
    · rw [if_pos h1] at hk
      exact ih k hk
    · rw [if_neg h1] at hk
      by_cases h2 : jsTrim s = ""
      · rw [if_pos h2] at hk
        exact ih k hk
      · rw [if_neg h2, List.map_cons] at hk
        rcases List.mem_cons.mp hk with he | hm
        · rw [he]
          exact h2
        · exact ih k hm

/-- Occurrence keys of a population are never the empty string. -/
theorem occurrences_keys_ne :
    ∀ (ts : List Ticket) (k : String), k ∈ (occurrences ts).map Prod.fst → k ≠ "" := by
  intro ts
  induction ts with
  | nil => intro k hk; simp [occurrences] at hk
  | cons t rest ih =>
    intro k hk
    rw [occurrences, List.map_append] at hk
    rcases List.mem_append.mp hk with hm | hm
    · exact occsOfL_keys_ne t t.assignees k hm
    · exact ih k hm

/-- When every key is non-empty, the `if (key)` guard of the push loop is the
identity. -/
theorem filterMap_metrics (m : List (String × AgentAcc))
    (h : ∀ p ∈ m, p.1 ≠ "") :
    m.filterMap (fun e => if e.1 = "" then none else some (metricsOfAcc e.1 e.2)) =
      m.map (fun e => metricsOfAcc e.1 e.2) := by
  induction m with
  | nil => rfl
  | cons p rest ih =>
    rw [List.filterMap_cons, if_neg (h p (List.mem_cons_self p rest)), List.map_cons,
      ih (fun q hq => h q (List.mem_cons_of_mem p hq))]

/-- Example ticket 1 of the claim's rollup scenario: closed, rating 4,
2 resolution hours. -/
def exT1 : Ticket :=
  { id := "1", subject := "s", status := "Closed", assignees := ["x@y.com"], customer := "c",
    priority := .str "Medium", ticketType := "t", owner := "", rating := 4,
    createdAt := some 1, resolvedAt := some (some 2), resolutionTimeHours := 2 }

/-- Example ticket 2: closed, rating 5, 4 resolution hours. -/
def exT2 : Ticket :=
  { id := "2", subject := "s", status := "Closed", assignees := ["x@y.com"], customer := "c",
    priority := .str "Medium", ticketType := "t", owner := "", rating := 5,
    createdAt := some 1, resolvedAt := some (some 2), resolutionTimeHours := 4 }

/-- Example ticket 3: open. -/
def exT3 : Ticket :=
  { id := "3", subject := "s", status := "Open", assignees := ["x@y.com"], customer := "c",
    priority := .str "Medium", ticketType := "t", owner := "", rating := 0,
    createdAt := some 1, resolvedAt := none, resolutionTimeHours := 0 }

/-- `metricsOfAcc` projections, unfolded. -/
theorem metricsOfAcc_email (k : String) (a : AgentAcc) : (metricsOfAcc k a).email = k := rfl

/-- `metricsOfAcc` total, unfolded. -/
theorem metricsOfAcc_total (k : String) (a : AgentAcc) :
    (metricsOfAcc k a).totalTickets = a.total := rfl

/-- `metricsOfAcc` active, unfolded. -/
theorem metricsOfAcc_active (k : String) (a : AgentAcc) :
    (metricsOfAcc k a).activeTickets = a.active := rfl

/-- `metricsOfAcc` average rating, unfolded. -/
theorem metricsOfAcc_avgRating (k : String) (a : AgentAcc) :
    (metricsOfAcc k a).avgRating =
      if 0 < a.resolvedCount then a.ratingSum / (a.resolvedCount : ℚ) else 0 := rfl

/-- `metricsOfAcc` average hours, unfolded. -/
theorem metricsOfAcc_avgHours (k : String) (a : AgentAcc) :
    (metricsOfAcc k a).avgResolutionHours =
      if 0 < a.resolvedCount then a.timeSum / (a.resolvedCount : ℚ) else 0 := rfl

/-- Claim C9 (amended): the agent rollup yields exactly one entry per
distinct **trimmed** non-empty assignee string (whitespace-only assignees are
skipped and assignees equal after trimming are merged — the original claim's
"per distinct assignee string" fails when two tickets carry `"a"` and
`" a "`). Each occurrence of an agent on a ticket counts toward that agent's
`totalTickets`; `activeTickets` counts the agent's non-closed occurrences;
`avgRating` and `avgResolutionHours` are means over the agent's closed
occurrences only, 0 when there are none; the result is sorted descending by
`totalTickets`; and the claim's concrete example (an agent on 3 tickets, 2
closed with ratings 4 and 5 and hours 2 and 4, 1 open) yields
`totalTickets = 3`, `activeTickets = 1`, `avgRating = 4.5`,
`avgResolutionHours = 3`. -/
theorem claim_C9 :
    (∀ ts : List Ticket,
      ((calculateAgentMetrics ts).map AgentMetrics.email).Nodup ∧
      (∀ k, k ∈ (calculateAgentMetrics ts).map AgentMetrics.email ↔
        k ∈ (occurrences ts).map Prod.fst) ∧
      (∀ e ∈ calculateAgentMetrics ts,
        e.totalTickets = ((occurrences ts).filter (fun o => o.1 = e.email)).length ∧
        e.activeTickets = (((occurrences ts).filter (fun o => o.1 = e.email)).filter
          (fun o => ¬ o.2.status = "Closed")).length ∧
        e.avgRating = (if (closedOccs (occurrences ts) e.email).length = 0 then 0
          else ((closedOccs (occurrences ts) e.email).map (fun o => o.2.rating)).sum /
            ((closedOccs (occurrences ts) e.email).length : ℚ)) ∧
        e.avgResolutionHours = (if (closedOccs (occurrences ts) e.email).length = 0 then 0
          else ((closedOccs (occurrences ts) e.email).map
              (fun o => o.2.resolutionTimeHours)).sum /
            ((closedOccs (occurrences ts) e.email).length : ℚ))) ∧
      (calculateAgentMetrics ts).Pairwise (fun a b => b.totalTickets ≤ a.totalTickets)) ∧
    calculateAgentMetrics [exT1, exT2, exT3] =
      [{ email := "x@y.com", totalTickets := 3, avgRating := 9/2,
         avgResolutionHours := 3, activeTickets := 1 }] := by
  constructor
  · intro ts
    have hAM : agentMap ts = runOccs (occurrences ts) [] := agentMap_eq_runOccs ts []
    obtain ⟨hN, hM, hL⟩ := runOccs_inv (occurrences ts)
    have hKne : ∀ p ∈ agentMap ts, p.1 ≠ "" := by
      intro p hp
      have hmem : p.1 ∈ (agentMap ts).map Prod.fst := List.mem_map.mpr ⟨p, hp, rfl⟩
      rw [hAM] at hmem
      exact occurrences_keys_ne ts p.1 ((hM p.1).mp hmem)
    have hCalc : calculateAgentMetrics ts =
        List.insertionSort metricsGE
          ((agentMap ts).map (fun e => metricsOfAcc e.1 e.2)) := by
      unfold calculateAgentMetrics
      rw [filterMap_metrics _ hKne]
    have hperm : List.Perm
        (List.insertionSort metricsGE ((agentMap ts).map (fun e => metricsOfAcc e.1 e.2)))
        ((agentMap ts).map (fun e => metricsOfAcc e.1 e.2)) :=
      List.perm_insertionSort _ _
    have hemails : ((agentMap ts).map (fun e => metricsOfAcc e.1 e.2)).map
        AgentMetrics.email = (agentMap ts).map Prod.fst := by
      rw [List.map_map]
      rfl
    refine ⟨?_, ?_, ?_, ?_⟩
    · rw [hCalc]
      refine ((hperm.map AgentMetrics.email).nodup_iff).mpr ?_
      rw [hemails, hAM]
      exact hN
    · intro k
      rw [hCalc, (hperm.map AgentMetrics.email).mem_iff, hemails, hAM]
      exact hM k
    · intro e he
      rw [hCalc] at he
      have he' : e ∈ (agentMap ts).map (fun e => metricsOfAcc e.1 e.2) :=
        hperm.mem_iff.mp he
      obtain ⟨p, hp, hpe⟩ := List.mem_map.mp he'
      have hNd : ((agentMap ts).map Prod.fst).Nodup := by
        rw [hAM]
        exact hN
      have hpp : (p.1, p.2) ∈ agentMap ts := by
        rw [Prod.mk.eta]
        exact hp
      have hlk : alookup (agentMap ts) p.1 = some p.2 :=
        alookup_of_mem (agentMap ts) p.1 p.2 hNd hpp
      have hmem1 : p.1 ∈ (agentMap ts).map Prod.fst := List.mem_map.mpr ⟨p, hp, rfl⟩
      have hmemO : p.1 ∈ (occurrences ts).map Prod.fst := by
        rw [hAM] at hmem1
        exact (hM p.1).mp hmem1
      have hacc : p.2 = accSpec (occurrences ts) p.1 := by
        have h2 : alookup (agentMap ts) p.1 =
            if p.1 ∈ (occurrences ts).map Prod.fst
            then some (accSpec (occurrences ts) p.1) else none := by
          rw [hAM]
          exact hL p.1
        rw [hlk, if_pos hmemO] at h2
        exact Option.some_inj.mp h2
      subst hpe
      rw [hacc]
      simp only [metricsOfAcc_email, metricsOfAcc_total, metricsOfAcc_active,
        metricsOfAcc_avgRating, metricsOfAcc_avgHours]
      have htot : (accSpec (occurrences ts) p.1).total =
          ((occurrences ts).filter (fun o => o.1 = p.1)).length := by
        unfold accSpec
        rw [foldl_bumpStep_total]
        simp [emptyAcc]
      have hact : (accSpec (occurrences ts) p.1).active =
          (((occurrences ts).filter (fun o => o.1 = p.1)).filter
            (fun o => ¬ o.2.status = "Closed")).length := by
        unfold accSpec
        rw [foldl_bumpStep_active]
        simp [emptyAcc]
      have hres : (accSpec (occurrences ts) p.1).resolvedCount =
          (closedOccs (occurrences ts) p.1).length := by
        unfold accSpec closedOccs
        rw [foldl_bumpStep_resolved]
        simp [emptyAcc]
      have hrat : (accSpec (occurrences ts) p.1).ratingSum =
          ((closedOccs (occurrences ts) p.1).map (fun o => o.2.rating)).sum := by
        unfold accSpec closedOccs
        rw [foldl_bumpStep_ratingSum]
        simp [emptyAcc]
      have htim : (accSpec (occurrences ts) p.1).timeSum =
          ((closedOccs (occurrences ts) p.1).map
            (fun o => o.2.resolutionTimeHours)).sum := by
        unfold accSpec closedOccs
        rw [foldl_bumpStep_timeSum]
        simp [emptyAcc]
      refine ⟨htot, hact, ?_, ?_⟩
      · rw [hres, hrat]
        by_cases hz : (closedOccs (occurrences ts) p.1).length = 0
        · rw [if_pos hz, if_neg (by omega)]
        · rw [if_neg hz, if_pos (by omega)]
      · rw [hres, htim]
        by_cases hz : (closedOccs (occurrences ts) p.1).length = 0
        · rw [if_pos hz, if_neg (by omega)]
        · rw [if_neg hz, if_pos (by omega)]
    · rw [hCalc]
      exact List.sorted_insertionSort metricsGE _
  · have h : calculateAgentMetrics [exT1, exT2, exT3] =
        [{ email := "x@y.com", totalTickets := 3,
           avgRating := ((0:ℚ) + 4 + 5) / ((2:Nat):ℚ),
           avgResolutionHours := ((0:ℚ) + 2 + 4) / ((2:Nat):ℚ), activeTickets := 1 }] := rfl
    rw [h]
    norm_num [AgentMetrics.mk.injEq]

/-- A ticket assigned to `"a"`. -/
def cxT1 : Ticket :=
  { id := "1", subject := "s", status := "Open", assignees := ["a"], customer := "c",
    priority := .str "Medium", ticketType := "t", owner := "", rating := 0,
    createdAt := some 1, resolvedAt := none, resolutionTimeHours := 0 }

/-- A ticket assigned to `" a "` — a distinct string, equal after trimming. -/
def cxT2 : Ticket :=
  { id := "2", subject := "s", status := "Open", assignees := [" a "], customer := "c",
    priority := .str "Medium", ticketType := "t", owner := "", rating := 0,
    createdAt := some 1, resolvedAt := none, resolutionTimeHours := 0 }

/-- Counterexample to C9 as stated: the population carries the two distinct
non-empty assignee strings `"a"` and `" a "`, yet the rollup has a single
entry — the grouping key is the trimmed assignee, so "exactly one entry per
distinct non-empty assignee string" fails. -/
theorem claim_C9_counterexample :
    (calculateAgentMetrics [cxT1, cxT2]).length = 1 ∧
    cxT1.assignees = ["a"] ∧ cxT2.assignees = [" a "] ∧
    ("a" : String) ≠ " a " ∧ ("a" : String) ≠ "" ∧ (" a " : String) ≠ "" := by
  refine ⟨?_, rfl, rfl, by decide, by decide, by decide⟩
  decide

/-- The single rollup entry of the claim's example population. -/
def exEntry : AgentMetrics :=
  { email := "x@y.com", totalTickets := 3, avgRating := 9/2,
    avgResolutionHours := 3, activeTickets := 1 }

/-- Witness for C9: the example entry's `totalTickets` is its occurrence
count. -/
theorem claim_C9_witness :
    exEntry.totalTickets =
      ((occurrences [exT1, exT2, exT3]).filter (fun o => o.1 = exEntry.email)).length :=
  ((claim_C9.1 [exT1, exT2, exT3]).2.2.1 exEntry (by
    rw [claim_C9.2]
    exact List.mem_singleton.mpr rfl)).1
